import Mathlib

/-!
Shallow embedding of `volume_encryption.py` (the `main` function): an
EC2 volume-encryption migration script.  The script is modelled as a
function from a machine description, an optional customer master key and
an oracle of waiter outcomes to the trace of remote mutating calls it
issues together with its exit outcome.  Read-only calls (describe,
waiter polls) are not events; every mutating control-plane call is.
-/

/-- A block-device-mapping entry of the instance, as captured by the
script into `all_mappings` (lines 70-76 of the source). -/
structure Mapping where
  deleteOnTermination : Bool
  volumeId : String
  deviceName : String
deriving DecidableEq, Repr

/-- An attached volume as the script reads it: its id, its encrypted
flag, and its provider-side volume type (the latter is read by nobody in
the script; it is carried so that theorems can quantify over it). -/
structure Volume where
  volumeId : String
  encrypted : Bool
  volumeType : String
deriving DecidableEq, Repr

/-- The AWS instance state name paired with each state code (the script
prints `instance.state[Name]` in its invalid-state message). -/
def stateName : Nat → String
  | 0 => "pending"
  | 16 => "running"
  | 32 => "shutting-down"
  | 48 => "terminated"
  | 64 => "stopping"
  | 80 => "stopped"
  | _ => "unknown"

/-- The target machine as described by the control plane at script
start.  `boto3` resource attributes are loaded once and never reloaded
by the script, so the state code is a single value for the whole run. -/
structure Machine where
  instanceId : String
  stateCode : Nat
  availabilityZone : String
  blockDeviceMappings : List Mapping
  volumes : List Volume
deriving DecidableEq, Repr

/-- Outcomes of the bounded waiter calls the script performs.  The four
per-volume waiters are indexed by the position of the volume in the
iteration order, since each loop iteration performs its own waits. -/
structure WaitOutcomes where
  instanceExists : Bool
  instanceStopped : Nat → Bool
  snapshotComplete : Nat → Bool
  copyComplete : Nat → Bool
  volumeAvailable : Nat → Bool
  instanceRunning : Bool

/-- A remote mutating control-plane call issued by the script. -/
inductive Event where
  | stopInstance (instanceId : String)
  | createSnapshot (snapshotId : String) (volumeId : String)
  | deleteSnapshot (snapshotId : String)
  | copySnapshot (newSnapshotId : String) (srcSnapshotId : String)
      (sourceRegion : String) (kmsKeyId : Option String) (encrypted : Bool)
  | createVolume (newVolumeId : String) (snapshotId : String)
      (volumeType : String) (availabilityZone : String)
  | detachVolume (volumeId : String) (device : String)
  | attachVolume (volumeId : String) (device : String)
  | modifyAttribute (device : String) (deleteOnTermination : Bool)
  | startInstance (instanceId : String)
  | deleteVolume (volumeId : String)
deriving DecidableEq, Repr

/-- How the process ends: `exitErr` is `sys.exit(message)` (message on
stderr, exit status 1), `keyError` is the uncaught KeyError raised when
a volume has no block-device-mapping entry, `finished` is a normal
return (exit status 0). -/
inductive Outcome where
  | exitErr (msg : String)
  | keyError
  | finished
deriving DecidableEq, Repr

/-- Fresh snapshot id returned by `create_snapshot` for a source volume. -/
def snapId (volumeId : String) : String := "snap-" ++ volumeId

/-- Fresh snapshot id returned by `snapshot.copy` for a source volume. -/
def encSnapId (volumeId : String) : String := "snapenc-" ++ volumeId

/-- Fresh volume id returned by `create_volume` for a source volume. -/
def encVolId (volumeId : String) : String := "volenc-" ++ volumeId

/-- The per-volume dictionary appended to `volume_data` after a
successful swap (device name, delete-on-termination flag and the two
snapshot handles, keyed by the source volume). -/
structure VolumeData where
  volumeId : String
  deleteOnTermination : Bool
  deviceName : String
  snapshotId : String
  encSnapshotId : String
deriving DecidableEq, Repr

/-- The `for mapping in all_mappings` lookup loop: it overwrites
`current_volume_data` on every match, so the last matching entry wins;
no match leaves the empty dictionary, modelled as `none`. -/
def findMapping (mappings : List Mapping) (vid : String) : Option Mapping :=
  mappings.foldl (fun acc mp => if mp.volumeId = vid then some mp else acc) none

def alreadyEncryptedMsg (vid : String) : String :=
  "**Volume (" ++ vid ++ ") is already encrypted"

def invalidStateMsg (code : Nat) : String :=
  "ERROR: Instance is " ++ stateName code ++ " please make sure this instance is active."

def stopWaitMsg : String := "ERROR: Waiter InstanceStopped failed"
def snapWaitMsg : String := "ERROR: Waiter SnapshotCompleted failed"
def copyWaitMsg : String := "ERROR: Waiter SnapshotCopyCompleted failed"
def availWaitMsg : String := "ERROR: Waiter VolumeAvailable failed"
def existsWaitMsg : String := "ERROR: Waiter InstanceExists failed"
def runningWaitMsg : String := "ERROR: Waiter InstanceRunning failed"

/-- The stop call issued by Step 1: `instance.stop()` is called exactly
when the cached state code is 16 (running); the state attribute is never
reloaded, so the same decision is taken on every iteration. -/
def stopEvs (m : Machine) : List Event :=
  if m.stateCode = 16 then [Event.stopInstance m.instanceId] else []

/-- One iteration of the `for volume in volumes` loop (source lines
83-213): mapping lookup, already-encrypted exit, state check, stop and
stop-wait, snapshot and wait, encrypted copy and wait, volume creation,
detach, available-wait, attach.  Returns the events issued during the
iteration and either the exit outcome (`sys.exit` aborts the process)
or the `current_volume_data` record appended to `volume_data`. -/
def processVolume (m : Machine) (cmk : Option String) (w : WaitOutcomes)
    (i : Nat) (v : Volume) : List Event × (Outcome ⊕ VolumeData) :=
  if v.encrypted then
    ([], Sum.inl (Outcome.exitErr (alreadyEncryptedMsg v.volumeId)))
  else if m.stateCode = 0 ∨ m.stateCode = 32 ∨ m.stateCode = 48 then
    ([], Sum.inl (Outcome.exitErr (invalidStateMsg m.stateCode)))
  else
    if w.instanceStopped i = false then
      (stopEvs m, Sum.inl (Outcome.exitErr stopWaitMsg))
    else
      let sId := snapId v.volumeId
      let evs1 := stopEvs m ++ [Event.createSnapshot sId v.volumeId]
      if w.snapshotComplete i = false then
        (evs1 ++ [Event.deleteSnapshot sId], Sum.inl (Outcome.exitErr snapWaitMsg))
      else
        let eId := encSnapId v.volumeId
        let evs2 := evs1 ++ [Event.copySnapshot eId sId "us-east-1" cmk true]
        if w.copyComplete i = false then
          (evs2 ++ [Event.deleteSnapshot sId, Event.deleteSnapshot eId],
           Sum.inl (Outcome.exitErr copyWaitMsg))
        else
          let nId := encVolId v.volumeId
          let evs3 := evs2 ++
            [Event.createVolume nId eId "gp2" m.availabilityZone]
          match findMapping m.blockDeviceMappings v.volumeId with
          | none => (evs3, Sum.inl Outcome.keyError)
          | some mp =>
            let evs4 := evs3 ++ [Event.detachVolume v.volumeId mp.deviceName]
            if w.volumeAvailable i = false then
              (evs4 ++ [Event.deleteSnapshot sId, Event.deleteSnapshot eId,
                        Event.deleteVolume nId],
               Sum.inl (Outcome.exitErr availWaitMsg))
            else
              (evs4 ++ [Event.attachVolume nId mp.deviceName],
               Sum.inr { volumeId := v.volumeId,
                         deleteOnTermination := mp.deleteOnTermination,
                         deviceName := mp.deviceName,
                         snapshotId := sId, encSnapshotId := eId })

/-- The whole `for volume in volumes` loop, threading the iteration
index for the waiter oracle; a `sys.exit` inside an iteration aborts the
remaining iterations. -/
def runVolumes (m : Machine) (cmk : Option String) (w : WaitOutcomes) :
    Nat → List Volume → List Event × (Outcome ⊕ List VolumeData)
  | _, [] => ([], Sum.inr [])
  | i, v :: vs =>
    match processVolume m cmk w i v with
    | (evs, Sum.inl o) => (evs, Sum.inl o)
    | (evs, Sum.inr vd) =>
      match runVolumes m cmk w (i + 1) vs with
      | (evs2, Sum.inl o) => (evs ++ evs2, Sum.inl o)
      | (evs2, Sum.inr vds) => (evs ++ evs2, Sum.inr (vd :: vds))

/-- The `Step 7: Clean up` loop: for each migrated volume delete the
plain snapshot, the encrypted snapshot, then the source volume. -/
def cleanupEvs (vds : List VolumeData) : List Event :=
  vds.flatMap (fun vd =>
    [Event.deleteSnapshot vd.snapshotId,
     Event.deleteSnapshot vd.encSnapshotId,
     Event.deleteVolume vd.volumeId])

/-- The whole of `main` after argument parsing: existence wait, the
per-volume loop, the `modify_attribute` loop over `volume_data`, the
unconditional `instance.start()`, the running-wait, and cleanup. -/
def run (m : Machine) (cmk : Option String) (w : WaitOutcomes) :
    List Event × Outcome :=
  if w.instanceExists = false then
    ([], Outcome.exitErr existsWaitMsg)
  else
    match runVolumes m cmk w 0 m.volumes with
    | (evs, Sum.inl o) => (evs, o)
    | (evs, Sum.inr vds) =>
      let evs2 := evs ++
        vds.map (fun vd => Event.modifyAttribute vd.deviceName vd.deleteOnTermination) ++
        [Event.startInstance m.instanceId]
      if w.instanceRunning = false then
        (evs2, Outcome.exitErr runningWaitMsg)
      else
        (evs2 ++ cleanupEvs vds, Outcome.finished)

/-- The event list of one fully successful loop iteration for source
volume `v` whose block-device-mapping entry is `mp`. -/
def okEvs (m : Machine) (cmk : Option String) (v : Volume) (mp : Mapping) :
    List Event :=
  stopEvs m ++
  [Event.createSnapshot (snapId v.volumeId) v.volumeId,
   Event.copySnapshot (encSnapId v.volumeId) (snapId v.volumeId) "us-east-1" cmk true,
   Event.createVolume (encVolId v.volumeId) (encSnapId v.volumeId) "gp2" m.availabilityZone,
   Event.detachVolume v.volumeId mp.deviceName,
   Event.attachVolume (encVolId v.volumeId) mp.deviceName]

/-- The `current_volume_data` record produced by a successful iteration. -/
def mkVD (v : Volume) (mp : Mapping) : VolumeData :=
  { volumeId := v.volumeId, deleteOnTermination := mp.deleteOnTermination,
    deviceName := mp.deviceName, snapshotId := snapId v.volumeId,
    encSnapshotId := encSnapId v.volumeId }

/-- True of the deletion calls (snapshot or volume). -/
def Event.isDelete : Event → Bool
  | .deleteSnapshot _ => true
  | .deleteVolume _ => true
  | _ => false

/-- True of attach calls. -/
def Event.isAttach : Event → Bool
  | .attachVolume _ _ => true
  | _ => false

/-- True of the `instance.start()` call. -/
def Event.isStart : Event → Bool
  | .startInstance _ => true
  | _ => false

/-- True of `create_volume` calls. -/
def Event.isCreateVolume : Event → Bool
  | .createVolume _ _ _ _ => true
  | _ => false

/-- The state codes on which the Step 1 check aborts: pending (0),
shutting-down (32), terminated (48). -/
def exitState (code : Nat) : Prop := code = 0 ∨ code = 32 ∨ code = 48

instance (code : Nat) : Decidable (exitState code) := by
  unfold exitState; infer_instance

/-- Ids generated by the control plane for new resources never collide
with the ids of the machine's own volumes. -/
def goodIds (m : Machine) : Prop :=
  ∀ v ∈ m.volumes, ∀ u ∈ m.volumes, encVolId u.volumeId ≠ v.volumeId

instance (m : Machine) : Decidable (goodIds m) := by
  unfold goodIds; infer_instance

/-- Concrete fixtures used by witnesses and counterexamples. -/
def mapA : Mapping := { deleteOnTermination := true, volumeId := "vol-0", deviceName := "dev-sda1" }

def volA : Volume := { volumeId := "vol-0", encrypted := false, volumeType := "standard" }

def m1 : Machine :=
  { instanceId := "i-0", stateCode := 16, availabilityZone := "us-west-2a",
    blockDeviceMappings := [mapA], volumes := [volA] }

def m80 : Machine :=
  { instanceId := "i-0", stateCode := 80, availabilityZone := "us-west-2a",
    blockDeviceMappings := [mapA], volumes := [volA] }

def mZero : Machine :=
  { instanceId := "i-0", stateCode := 16, availabilityZone := "us-west-2a",
    blockDeviceMappings := [], volumes := [] }

def mPending : Machine :=
  { instanceId := "i-0", stateCode := 0, availabilityZone := "us-west-2a",
    blockDeviceMappings := [mapA], volumes := [volA] }

def mEnc : Machine :=
  { instanceId := "i-0", stateCode := 16, availabilityZone := "us-west-2a",
    blockDeviceMappings := [mapA],
    volumes := [{ volumeId := "vol-0", encrypted := true, volumeType := "standard" }] }

def wAll : WaitOutcomes :=
  { instanceExists := true, instanceStopped := fun _ => true,
    snapshotComplete := fun _ => true, copyComplete := fun _ => true,
    volumeAvailable := fun _ => true, instanceRunning := true }

def wNoRunning : WaitOutcomes :=
  { instanceExists := true, instanceStopped := fun _ => true,
    snapshotComplete := fun _ => true, copyComplete := fun _ => true,
    volumeAvailable := fun _ => true, instanceRunning := false }

def wNoAvail : WaitOutcomes :=
  { instanceExists := true, instanceStopped := fun _ => true,
    snapshotComplete := fun _ => true, copyComplete := fun _ => true,
    volumeAvailable := fun _ => false, instanceRunning := true }

def wNoSnap : WaitOutcomes :=
  { instanceExists := true, instanceStopped := fun _ => true,
    snapshotComplete := fun _ => false, copyComplete := fun _ => true,
    volumeAvailable := fun _ => true, instanceRunning := true }

/-- Every event a loop iteration for volume `v` can emit, over all
branches. -/
def evShape (m : Machine) (cmk : Option String) (v : Volume) (e : Event) : Prop :=
  e = Event.stopInstance m.instanceId ∨
  e = Event.createSnapshot (snapId v.volumeId) v.volumeId ∨
  e = Event.deleteSnapshot (snapId v.volumeId) ∨
  e = Event.deleteSnapshot (encSnapId v.volumeId) ∨
  e = Event.copySnapshot (encSnapId v.volumeId) (snapId v.volumeId) "us-east-1" cmk true ∨
  e = Event.createVolume (encVolId v.volumeId) (encSnapId v.volumeId) "gp2" m.availabilityZone ∨
  (∃ dev, e = Event.detachVolume v.volumeId dev) ∨
  (∃ dev, e = Event.attachVolume (encVolId v.volumeId) dev) ∨
  e = Event.deleteVolume (encVolId v.volumeId)

/-- Modelled from the spec: section 3 of the spec says a volume's
size/type are "copied forward, not altered by this system"; under that
reading the replacement volume would carry the source volume's type. -/
def specReplacementVolumeType (v : Volume) : String := v.volumeType



theorem processVolume_ok (m : Machine) (cmk : Option String) (w : WaitOutcomes)
    (i : Nat) (v : Volume) (mp : Mapping)
    (henc : v.encrypted = false) (hstate : ¬ exitState m.stateCode)
    (hmp : findMapping m.blockDeviceMappings v.volumeId = some mp)
    (h1 : w.instanceStopped i = true) (h2 : w.snapshotComplete i = true)
    (h3 : w.copyComplete i = true) (h4 : w.volumeAvailable i = true) :
    processVolume m cmk w i v = (okEvs m cmk v mp, Sum.inr (mkVD v mp)) := by
  unfold processVolume
  rw [hmp]
  simp [henc, h1, h2, h3, h4, okEvs, mkVD, exitState] at *
  simp [hstate]

theorem processVolume_shape (m : Machine) (cmk : Option String) (w : WaitOutcomes)
    (i : Nat) (v : Volume) (e : Event)
    (he : e ∈ (processVolume m cmk w i v).1) :
    evShape m cmk v e := by
  unfold processVolume stopEvs at he
  unfold evShape
  rcases hm : findMapping m.blockDeviceMappings v.volumeId with _ | mp
  all_goals rw [hm] at he
  all_goals split_ifs at he
  all_goals simp only [List.mem_append, List.mem_cons, List.not_mem_nil,
    List.mem_singleton, or_false, false_or] at he
  all_goals try casesm* _ ∨ _
  all_goals subst_vars
  all_goals simp

theorem processVolume_inr (m : Machine) (cmk : Option String) (w : WaitOutcomes)
    (i : Nat) (v : Volume) (evs : List Event) (vd : VolumeData)
    (h : processVolume m cmk w i v = (evs, Sum.inr vd)) :
    v.encrypted = false ∧ ¬ exitState m.stateCode ∧
    ∃ mp, findMapping m.blockDeviceMappings v.volumeId = some mp ∧
      evs = okEvs m cmk v mp ∧ vd = mkVD v mp := by
  unfold processVolume at h
  rcases hm : findMapping m.blockDeviceMappings v.volumeId with _ | mp
  all_goals rw [hm] at h
  all_goals split_ifs at h <;> simp_all [okEvs, mkVD, exitState]

theorem runVolumes_shape (m : Machine) (cmk : Option String) (w : WaitOutcomes)
    (vs : List Volume) :
    ∀ (i : Nat) (e : Event), e ∈ (runVolumes m cmk w i vs).1 →
      ∃ v ∈ vs, evShape m cmk v e := by
  induction vs with
  | nil => intro i e he; simp [runVolumes] at he
  | cons v vs ih =>
    intro i e he
    rw [runVolumes] at he
    rcases hp : processVolume m cmk w i v with ⟨evs, r⟩
    rw [hp] at he
    cases r with
    | inl o =>
      refine ⟨v, by simp, processVolume_shape m cmk w i v e ?_⟩
      rw [hp]; exact he
    | inr vd =>
      rcases hr : runVolumes m cmk w (i + 1) vs with ⟨evs2, r2⟩
      rw [hr] at he
      have hsplit : e ∈ evs ∨ e ∈ evs2 := by
        cases r2 <;> simpa using he
      rcases hsplit with h | h
      · exact ⟨v, by simp, processVolume_shape m cmk w i v e (by rw [hp]; exact h)⟩
      · obtain ⟨u, hu, hs⟩ := ih (i + 1) e (by rw [hr]; exact h)
        exact ⟨u, by simp [hu], hs⟩

theorem okEvs_deletes (m : Machine) (cmk : Option String) (v : Volume) (mp : Mapping) :
    (okEvs m cmk v mp).filter Event.isDelete = [] := by
  by_cases h : m.stateCode = 16 <;>
    simp [okEvs, stopEvs, h, Event.isDelete, List.filter]

theorem okEvs_attaches (m : Machine) (cmk : Option String) (v : Volume) (mp : Mapping) :
    (okEvs m cmk v mp).filter Event.isAttach =
      [Event.attachVolume (encVolId v.volumeId) mp.deviceName] := by
  by_cases h : m.stateCode = 16 <;>
    simp [okEvs, stopEvs, h, Event.isAttach, List.filter]

theorem runVolumes_inr (m : Machine) (cmk : Option String) (w : WaitOutcomes)
    (vs : List Volume) :
    ∀ (i : Nat) (evs : List Event) (vds : List VolumeData),
      runVolumes m cmk w i vs = (evs, Sum.inr vds) →
      (∀ v ∈ vs, ∃ mp, findMapping m.blockDeviceMappings v.volumeId = some mp ∧
          mkVD v mp ∈ vds ∧ Event.attachVolume (encVolId v.volumeId) mp.deviceName ∈ evs) ∧
      (∀ vd ∈ vds, ∃ v ∈ vs, ∃ mp,
          findMapping m.blockDeviceMappings v.volumeId = some mp ∧ vd = mkVD v mp) ∧
      evs.filter Event.isDelete = [] ∧
      (evs.filter Event.isAttach).length = vs.length := by
  induction vs with
  | nil =>
    intro i evs vds h
    simp [runVolumes] at h
    obtain ⟨h1, h2⟩ := h
    subst h1; subst h2
    simp
  | cons v vs ih =>
    intro i evs vds h
    rw [runVolumes] at h
    rcases hp : processVolume m cmk w i v with ⟨evs1, r⟩
    rw [hp] at h
    cases r with
    | inl o => simp at h
    | inr vd =>
      rcases hr : runVolumes m cmk w (i + 1) vs with ⟨evs2, r2⟩
      rw [hr] at h
      cases r2 with
      | inl o => simp at h
      | inr vds2 =>
        simp only [Prod.mk.injEq, Sum.inr.injEq] at h
        obtain ⟨hevs, hvds⟩ := h
        subst hevs; subst hvds
        obtain ⟨henc, hst, mp, hmp, hevs1, hvd⟩ :=
          processVolume_inr _ _ _ _ _ _ _ hp
        obtain ⟨ih1, ih2, ih3, ih4⟩ := ih (i + 1) evs2 vds2 hr
        subst hevs1
        subst hvd
        refine ⟨?_, ?_, ?_, ?_⟩
        · intro u hu
          rcases List.mem_cons.mp hu with rfl | hu2
          · exact ⟨mp, hmp, by simp, by simp [okEvs]⟩
          · obtain ⟨mp2, hmp2, hin, hat⟩ := ih1 u hu2
            exact ⟨mp2, hmp2, by simp [hin], by simp [hat]⟩
        · intro vd2 hvd2
          rcases List.mem_cons.mp hvd2 with rfl | h2
          · exact ⟨v, by simp, mp, hmp, rfl⟩
          · obtain ⟨u, hu, mp2, hmp2, he⟩ := ih2 vd2 h2
            exact ⟨u, by simp [hu], mp2, hmp2, he⟩
        · simp [List.filter_append, ih3, okEvs_deletes]
        · simp [List.filter_append, ih4, okEvs_attaches]

theorem okEvs_shape (m : Machine) (cmk : Option String) (v : Volume) (mp : Mapping) :
    ∀ e ∈ okEvs m cmk v mp, evShape m cmk v e := by
  intro e he
  unfold evShape
  by_cases h : m.stateCode = 16 <;>
    simp only [okEvs, stopEvs, h, if_true, if_neg, List.mem_append, List.mem_cons,
      List.not_mem_nil, or_false, false_or, ite_true, ite_false] at he <;>
    (try casesm* _ ∨ _) <;> subst_vars <;> simp

theorem processVolume_snapFail (m : Machine) (cmk : Option String) (w : WaitOutcomes)
    (i : Nat) (v : Volume)
    (henc : v.encrypted = false) (hstate : ¬ exitState m.stateCode)
    (h1 : w.instanceStopped i = true) (h2 : w.snapshotComplete i = false) :
    processVolume m cmk w i v =
      (stopEvs m ++ [Event.createSnapshot (snapId v.volumeId) v.volumeId,
                     Event.deleteSnapshot (snapId v.volumeId)],
       Sum.inl (Outcome.exitErr snapWaitMsg)) := by
  unfold processVolume
  simp [henc, h1, h2, exitState] at *
  simp [hstate]

theorem processVolume_availFail (m : Machine) (cmk : Option String) (w : WaitOutcomes)
    (i : Nat) (v : Volume) (mp : Mapping)
    (henc : v.encrypted = false) (hstate : ¬ exitState m.stateCode)
    (hmp : findMapping m.blockDeviceMappings v.volumeId = some mp)
    (h1 : w.instanceStopped i = true) (h2 : w.snapshotComplete i = true)
    (h3 : w.copyComplete i = true) (h4 : w.volumeAvailable i = false) :
    processVolume m cmk w i v =
      (stopEvs m ++
       [Event.createSnapshot (snapId v.volumeId) v.volumeId,
        Event.copySnapshot (encSnapId v.volumeId) (snapId v.volumeId) "us-east-1" cmk true,
        Event.createVolume (encVolId v.volumeId) (encSnapId v.volumeId) "gp2" m.availabilityZone,
        Event.detachVolume v.volumeId mp.deviceName,
        Event.deleteSnapshot (snapId v.volumeId),
        Event.deleteSnapshot (encSnapId v.volumeId),
        Event.deleteVolume (encVolId v.volumeId)],
       Sum.inl (Outcome.exitErr availWaitMsg)) := by
  unfold processVolume
  rw [hmp]
  simp [henc, h1, h2, h3, h4, exitState] at *
  simp [hstate]

theorem processVolume_inl_outcome (m : Machine) (cmk : Option String) (w : WaitOutcomes)
    (i : Nat) (v : Volume) (evs : List Event) (o : Outcome)
    (h : processVolume m cmk w i v = (evs, Sum.inl o)) :
    o ≠ Outcome.finished := by
  intro hfin
  subst hfin
  unfold processVolume at h
  rcases hm : findMapping m.blockDeviceMappings v.volumeId with _ | mp
  all_goals rw [hm] at h
  all_goals split_ifs at h <;> simp_all

theorem runVolumes_inl_outcome (m : Machine) (cmk : Option String) (w : WaitOutcomes)
    (vs : List Volume) :
    ∀ (i : Nat) (evs : List Event) (o : Outcome),
      runVolumes m cmk w i vs = (evs, Sum.inl o) → o ≠ Outcome.finished := by
  induction vs with
  | nil => intro i evs o h; simp [runVolumes] at h
  | cons v vs ih =>
    intro i evs o h
    rw [runVolumes] at h
    rcases hp : processVolume m cmk w i v with ⟨evs1, r⟩
    rw [hp] at h
    cases r with
    | inl o1 =>
      simp only [Prod.mk.injEq, Sum.inl.injEq] at h
      exact h.2 ▸ processVolume_inl_outcome m cmk w i v evs1 o1 hp
    | inr vd =>
      rcases hr : runVolumes m cmk w (i + 1) vs with ⟨evs2, r2⟩
      rw [hr] at h
      cases r2 with
      | inl o2 =>
        simp only [Prod.mk.injEq, Sum.inl.injEq] at h
        exact h.2 ▸ ih (i + 1) evs2 o2 hr
      | inr vds2 => simp at h

theorem runVolumes_ok (m : Machine) (cmk : Option String) (w : WaitOutcomes)
    (hst : ¬ exitState m.stateCode)
    (hw : ∀ j, w.instanceStopped j = true ∧ w.snapshotComplete j = true ∧
        w.copyComplete j = true ∧ w.volumeAvailable j = true)
    (vs : List Volume) :
    ∀ i, (∀ v ∈ vs, v.encrypted = false ∧
        (findMapping m.blockDeviceMappings v.volumeId).isSome = true) →
      ∃ evs vds, runVolumes m cmk w i vs = (evs, Sum.inr vds) := by
  induction vs with
  | nil => intro i _; exact ⟨[], [], by simp [runVolumes]⟩
  | cons v vs ih =>
    intro i hvs
    obtain ⟨henc, hmp⟩ := hvs v (by simp)
    obtain ⟨mp, hmp2⟩ := Option.isSome_iff_exists.mp hmp
    obtain ⟨h1, h2, h3, h4⟩ := hw i
    have hpv := processVolume_ok m cmk w i v mp henc hst hmp2 h1 h2 h3 h4
    obtain ⟨evs2, vds2, hr⟩ := ih (i + 1) (fun u hu => hvs u (by simp [hu]))
    exact ⟨okEvs m cmk v mp ++ evs2, mkVD v mp :: vds2,
      by rw [runVolumes, hpv, hr]⟩

theorem runVolumes_split (m : Machine) (cmk : Option String) (w : WaitOutcomes)
    (hst : ¬ exitState m.stateCode) :
    ∀ (pre rest : List Volume) (i : Nat),
      (∀ v ∈ pre, v.encrypted = false ∧
          (findMapping m.blockDeviceMappings v.volumeId).isSome = true) →
      (∀ j, j < pre.length → w.instanceStopped (i + j) = true ∧
          w.snapshotComplete (i + j) = true ∧ w.copyComplete (i + j) = true ∧
          w.volumeAvailable (i + j) = true) →
      ∃ evs0 vds0,
        (∀ e ∈ evs0, ∃ u ∈ pre, evShape m cmk u e) ∧
        evs0.filter Event.isDelete = [] ∧
        runVolumes m cmk w i (pre ++ rest) =
          (evs0 ++ (runVolumes m cmk w (i + pre.length) rest).1,
           match (runVolumes m cmk w (i + pre.length) rest).2 with
           | Sum.inl o => Sum.inl o
           | Sum.inr vds => Sum.inr (vds0 ++ vds)) := by
  intro pre
  induction pre with
  | nil =>
    intro rest i _ _
    refine ⟨[], [], by simp, by simp, ?_⟩
    rcases h : runVolumes m cmk w i rest with ⟨evs, r⟩
    cases r <;> simp_all
  | cons u pre ih =>
    intro rest i hpre hw
    obtain ⟨henc, hmp⟩ := hpre u (by simp)
    obtain ⟨mp, hmp2⟩ := Option.isSome_iff_exists.mp hmp
    obtain ⟨h1, h2, h3, h4⟩ := by simpa using hw 0 (by simp)
    have hpv := processVolume_ok m cmk w i u mp henc hst hmp2 h1 h2 h3 h4
    have hw2 : ∀ j, j < pre.length → w.instanceStopped (i + 1 + j) = true ∧
        w.snapshotComplete (i + 1 + j) = true ∧ w.copyComplete (i + 1 + j) = true ∧
        w.volumeAvailable (i + 1 + j) = true := by
      intro j hj
      have := hw (j + 1) (by simp; omega)
      rwa [show i + (j + 1) = i + 1 + j by omega] at this
    obtain ⟨evs0, vds0, hshape, hdel, heq⟩ :=
      ih rest (i + 1) (fun x hx => hpre x (by simp [hx])) hw2
    refine ⟨okEvs m cmk u mp ++ evs0, mkVD u mp :: vds0, ?_, ?_, ?_⟩
    · intro e he
      rcases List.mem_append.mp he with h | h
      · exact ⟨u, by simp, okEvs_shape m cmk u mp e h⟩
      · obtain ⟨x, hx, hs⟩ := hshape e h
        exact ⟨x, by simp [hx], hs⟩
    · simp [List.filter_append, hdel, okEvs_deletes]
    · have hlen : i + (u :: pre).length = i + 1 + pre.length := by
        simp; omega
      rw [show (u :: pre) ++ rest = u :: (pre ++ rest) by simp]
      rw [runVolumes, hpv, heq, hlen]
      rcases hrest : runVolumes m cmk w (i + 1 + pre.length) rest with ⟨evs1, r1⟩
      cases r1 <;> simp

theorem cleanupEvs_mem (vds : List VolumeData) (e : Event)
    (he : e ∈ cleanupEvs vds) :
    ∃ vd ∈ vds, e = Event.deleteSnapshot vd.snapshotId ∨
      e = Event.deleteSnapshot vd.encSnapshotId ∨
      e = Event.deleteVolume vd.volumeId := by
  simp only [cleanupEvs, List.mem_flatMap, List.mem_cons, List.not_mem_nil,
    or_false] at he
  obtain ⟨vd, hvd, h⟩ := he
  exact ⟨vd, hvd, h⟩

theorem cleanupEvs_has (vds : List VolumeData) (vd : VolumeData) (h : vd ∈ vds) :
    Event.deleteSnapshot vd.snapshotId ∈ cleanupEvs vds ∧
    Event.deleteSnapshot vd.encSnapshotId ∈ cleanupEvs vds ∧
    Event.deleteVolume vd.volumeId ∈ cleanupEvs vds := by
  refine ⟨?_, ?_, ?_⟩ <;> (simp only [cleanupEvs, List.mem_flatMap]; exact ⟨vd, h, by simp⟩)

theorem run_finished_inv (m : Machine) (cmk : Option String) (w : WaitOutcomes)
    (h : (run m cmk w).2 = Outcome.finished) :
    w.instanceExists = true ∧ w.instanceRunning = true ∧
    ∃ evs vds, runVolumes m cmk w 0 m.volumes = (evs, Sum.inr vds) ∧
      (run m cmk w).1 = evs ++
        vds.map (fun vd => Event.modifyAttribute vd.deviceName vd.deleteOnTermination) ++
        [Event.startInstance m.instanceId] ++ cleanupEvs vds := by
  by_cases hex : w.instanceExists = false
  · simp [run, hex] at h
  · rcases hr : runVolumes m cmk w 0 m.volumes with ⟨evs, r⟩
    cases r with
    | inl o =>
      exfalso
      have : (run m cmk w).2 = o := by simp [run, hex, hr]
      exact runVolumes_inl_outcome m cmk w m.volumes 0 evs o hr (this ▸ h)
    | inr vds =>
      by_cases hrun : w.instanceRunning = false
      · have : (run m cmk w).2 = Outcome.exitErr runningWaitMsg := by
          simp [run, hex, hr, hrun]
        rw [this] at h
        simp at h
      · refine ⟨by simpa using hex, by simpa using hrun, evs, vds, rfl, ?_⟩
        simp [run, hex, hr, hrun]

theorem run_events (m : Machine) (cmk : Option String) (w : WaitOutcomes)
    (e : Event) (he : e ∈ (run m cmk w).1) :
    (∃ v ∈ m.volumes, evShape m cmk v e) ∨
    (∃ dev b, e = Event.modifyAttribute dev b) ∨
    e = Event.startInstance m.instanceId ∨
    (∃ sid, e = Event.deleteSnapshot sid) ∨
    (∃ vid, e = Event.deleteVolume vid) := by
  by_cases hex : w.instanceExists = false
  · simp [run, hex] at he
  · rcases hr : runVolumes m cmk w 0 m.volumes with ⟨evs, r⟩
    cases r with
    | inl o =>
      rw [show (run m cmk w).1 = evs by simp [run, hex, hr]] at he
      exact Or.inl (runVolumes_shape m cmk w m.volumes 0 e (by rw [hr]; exact he))
    | inr vds =>
      have hsplit : e ∈ evs ∨
          e ∈ vds.map (fun vd => Event.modifyAttribute vd.deviceName vd.deleteOnTermination) ∨
          e = Event.startInstance m.instanceId ∨ e ∈ cleanupEvs vds := by
        by_cases hrun : w.instanceRunning = false
        · rw [show (run m cmk w).1 = evs ++
            vds.map (fun vd => Event.modifyAttribute vd.deviceName vd.deleteOnTermination) ++
            [Event.startInstance m.instanceId] by simp [run, hex, hr, hrun]] at he
          simp only [List.mem_append, List.mem_cons, List.not_mem_nil, or_false] at he
          tauto
        · rw [show (run m cmk w).1 = evs ++
            vds.map (fun vd => Event.modifyAttribute vd.deviceName vd.deleteOnTermination) ++
            [Event.startInstance m.instanceId] ++ cleanupEvs vds by simp [run, hex, hr, hrun]] at he
          simp only [List.mem_append, List.mem_cons, List.not_mem_nil, or_false] at he
          tauto
      rcases hsplit with h | h | h | h
      · exact Or.inl (runVolumes_shape m cmk w m.volumes 0 e (by rw [hr]; exact h))
      · refine Or.inr (Or.inl ?_)
        simp only [List.mem_map] at h
        obtain ⟨vd, _, hvd⟩ := h
        exact ⟨vd.deviceName, vd.deleteOnTermination, hvd.symm⟩
      · exact Or.inr (Or.inr (Or.inl h))
      · obtain ⟨vd, _, hvd⟩ := cleanupEvs_mem vds e h
        rcases hvd with h1 | h1 | h1
        · exact Or.inr (Or.inr (Or.inr (Or.inl ⟨_, h1⟩)))
        · exact Or.inr (Or.inr (Or.inr (Or.inl ⟨_, h1⟩)))
        · exact Or.inr (Or.inr (Or.inr (Or.inr ⟨_, h1⟩)))

theorem evShape_not_start (m : Machine) (cmk : Option String) (v : Volume)
    (e : Event) (hs : evShape m cmk v e) : Event.isStart e = false := by
  unfold evShape at hs
  rcases hs with h|h|h|h|h|h|⟨d,h⟩|⟨d,h⟩|h <;> subst h <;> rfl

/-- C9: every volume-creation request issued by any run carries the
hard-coded volume type gp2 and the machine's availability zone,
whatever the source volume's own type is; the spec's reading (type
copied forward) differs whenever the source type is not gp2. -/
theorem replacement_volume_fixed_gp2 (m : Machine) (cmk : Option String)
    (w : WaitOutcomes) (e : Event) (he : e ∈ (run m cmk w).1)
    (n s t a : String) (hcv : e = Event.createVolume n s t a) :
    t = "gp2" ∧ a = m.availabilityZone ∧
    (∀ v : Volume, v.volumeType ≠ "gp2" → t ≠ specReplacementVolumeType v) := by
  subst hcv
  rcases run_events m cmk w _ he with ⟨v, _, hs⟩ | ⟨dev, b2, h⟩ | h | ⟨sid, h⟩ | ⟨vid, h⟩
  · unfold evShape at hs
    rcases hs with h|h|h|h|h|h|⟨d,h⟩|⟨d,h⟩|h <;>
      simp_all [specReplacementVolumeType]
    intro v hv
    exact fun hgp => hv hgp.symm
  all_goals simp_all

/-- C9 witness. -/
theorem replacement_volume_fixed_gp2_witness :
    "gp2" = "gp2" ∧ "us-west-2a" = m1.availabilityZone ∧
    (∀ v : Volume, v.volumeType ≠ "gp2" → "gp2" ≠ specReplacementVolumeType v) :=
  replacement_volume_fixed_gp2 m1 none wAll
    (Event.createVolume "volenc-vol-0" "snapenc-vol-0" "gp2" "us-west-2a")
    (by decide) "volenc-vol-0" "snapenc-vol-0" "gp2" "us-west-2a" rfl

/-- C10: every encrypted-copy request issued by any run carries the
hard-coded source region us-east-1, the caller-supplied key identifier
exactly as given (none selects the provider default key), and the
encrypted flag set. -/
theorem copy_uses_fixed_source_region (m : Machine) (cmk : Option String)
    (w : WaitOutcomes) (e : Event) (he : e ∈ (run m cmk w).1)
    (n s r : String) (k : Option String) (b : Bool)
    (hcopy : e = Event.copySnapshot n s r k b) :
    r = "us-east-1" ∧ k = cmk ∧ b = true := by
  subst hcopy
  rcases run_events m cmk w _ he with ⟨v, _, hs⟩ | ⟨dev, b2, h⟩ | h | ⟨sid, h⟩ | ⟨vid, h⟩
  · unfold evShape at hs
    rcases hs with h|h|h|h|h|h|⟨d,h⟩|⟨d,h⟩|h <;> simp_all
  all_goals simp_all

/-- C10 witness. -/
theorem copy_uses_fixed_source_region_witness :
    "us-east-1" = "us-east-1" ∧ some "key-1" = some "key-1" ∧ true = true :=
  copy_uses_fixed_source_region m1 (some "key-1") wAll
    (Event.copySnapshot "snapenc-vol-0" "snap-vol-0" "us-east-1" (some "key-1") true)
    (by decide) "snapenc-vol-0" "snap-vol-0" "us-east-1" (some "key-1") true rfl

/-- C3 counterexample: a machine that was stopped (state code 80) before
migration is nevertheless started by a successful run, so the machine is
not "left stopped if it was already stopped beforehand". -/
theorem restart_counterexample :
    m80.stateCode = 80 ∧
    Event.startInstance "i-0" ∈ (run m80 none wAll).1 ∧
    (run m80 none wAll).2 = Outcome.finished := by decide

/-- C3 amended: once every volume of the machine has migrated
successfully, the run always issues the start call, regardless of the
machine's pre-migration state. -/
theorem migrated_machine_always_started (m : Machine) (cmk : Option String)
    (w : WaitOutcomes) (evs : List Event) (vds : List VolumeData)
    (hex : w.instanceExists = true)
    (h : runVolumes m cmk w 0 m.volumes = (evs, Sum.inr vds)) :
    Event.startInstance m.instanceId ∈ (run m cmk w).1 := by
  by_cases hrn : w.instanceRunning = false <;> simp [run, hex, h, hrn]

/-- C3 amended witness: a machine stopped beforehand. -/
theorem migrated_machine_always_started_witness :
    Event.startInstance m80.instanceId ∈ (run m80 none wAll).1 :=
  migrated_machine_always_started m80 none wAll
    [Event.createSnapshot "snap-vol-0" "vol-0",
     Event.copySnapshot "snapenc-vol-0" "snap-vol-0" "us-east-1" none true,
     Event.createVolume "volenc-vol-0" "snapenc-vol-0" "gp2" "us-west-2a",
     Event.detachVolume "vol-0" "dev-sda1",
     Event.attachVolume "volenc-vol-0" "dev-sda1"]
    [mkVD volA mapA] (by decide) (by decide)

/-- C4 counterexample: for a machine with zero attached volumes the run
still issues the mutating start call (and finishes normally when the
running-wait succeeds), so it is not true that no mutating call is
performed. -/
theorem no_volumes_counterexample :
    run mZero none wAll = ([Event.startInstance "i-0"], Outcome.finished) ∧
    Event.isStart (Event.startInstance "i-0") = true := by decide

/-- C4 amended: a machine whose volume list is nonempty and entirely
encrypted exits before any mutating call with the already-encrypted
message of the first volume (via an error-status sys.exit); a machine
with zero volumes performs no per-volume mutation but still issues the
start call before exiting. -/
theorem skip_already_encrypted (m : Machine) (cmk : Option String)
    (w : WaitOutcomes)
    (hex : w.instanceExists = true)
    (henc : ∀ v ∈ m.volumes, v.encrypted = true) :
    (m.volumes = [] → run m cmk w = ([Event.startInstance m.instanceId],
        if w.instanceRunning = false then Outcome.exitErr runningWaitMsg
        else Outcome.finished)) ∧
    (∀ v vs, m.volumes = v :: vs →
        run m cmk w = ([], Outcome.exitErr (alreadyEncryptedMsg v.volumeId))) := by
  constructor
  · intro h0
    by_cases hrn : w.instanceRunning = false <;>
      simp [run, hex, h0, runVolumes, hrn, cleanupEvs]
  · intro v vs hvols
    have hv : v.encrypted = true := henc v (by simp [hvols])
    simp [run, hex, hvols, runVolumes, processVolume, hv]

/-- C4 amended witness. -/
theorem skip_already_encrypted_witness :
    (mEnc.volumes = [] → run mEnc none wAll = ([Event.startInstance mEnc.instanceId],
        if wAll.instanceRunning = false then Outcome.exitErr runningWaitMsg
        else Outcome.finished)) ∧
    (∀ v vs, mEnc.volumes = v :: vs →
        run mEnc none wAll = ([], Outcome.exitErr (alreadyEncryptedMsg v.volumeId))) :=
  skip_already_encrypted mEnc none wAll (by decide) (by decide)

/-- C5 counterexample: when the wait for the restarted machine times
out, the run exits without deleting any snapshot it created, so a
restart-wait timeout does leave snapshots undeleted. -/
theorem restart_timeout_leaks_snapshots_counterexample :
    (run m1 none wNoRunning).2 = Outcome.exitErr runningWaitMsg ∧
    Event.createSnapshot "snap-vol-0" "vol-0" ∈ (run m1 none wNoRunning).1 ∧
    Event.copySnapshot "snapenc-vol-0" "snap-vol-0" "us-east-1" none true ∈
      (run m1 none wNoRunning).1 ∧
    (run m1 none wNoRunning).1.filter Event.isDelete = [] := by decide

/-- C5 amended: in a run that reaches Cleanup (outcome finished), every
snapshot created - plain or encrypted copy - is deleted by that same
run; a restart-wait timeout instead exits before Cleanup and leaves the
snapshots of fully migrated volumes undeleted. -/
theorem finished_run_deletes_created_snapshots (m : Machine)
    (cmk : Option String) (w : WaitOutcomes)
    (hfin : (run m cmk w).2 = Outcome.finished) :
    (∀ sid vid, Event.createSnapshot sid vid ∈ (run m cmk w).1 →
        Event.deleteSnapshot sid ∈ (run m cmk w).1) ∧
    (∀ n s r k b, Event.copySnapshot n s r k b ∈ (run m cmk w).1 →
        Event.deleteSnapshot n ∈ (run m cmk w).1) := by
  obtain ⟨hex, hrn, evs, vds, hr, htr⟩ := run_finished_inv m cmk w hfin
  obtain ⟨h1, h2, h3, h4⟩ := runVolumes_inr m cmk w m.volumes 0 evs vds hr
  constructor
  · intro sid vid hin
    rw [htr] at hin
    have hevs : Event.createSnapshot sid vid ∈ evs := by
      simp only [List.mem_append, List.mem_cons, List.not_mem_nil, or_false,
        List.mem_map] at hin
      rcases hin with ((h | h) | h) | h
      · exact h
      · obtain ⟨vd, _, hvd⟩ := h; simp at hvd
      · simp at h
      · obtain ⟨vd, _, hvd⟩ := cleanupEvs_mem vds _ h
        rcases hvd with h | h | h <;> simp at h
    obtain ⟨v, hv, hs⟩ := runVolumes_shape m cmk w m.volumes 0 _ (by rw [hr]; exact hevs)
    unfold evShape at hs
    rcases hs with h|h|h|h|h|h|⟨d,h⟩|⟨d,h⟩|h <;> simp_all
    obtain ⟨mp, _, hmem, _⟩ := h1 v hv
    have hdel := (cleanupEvs_has vds (mkVD v mp) hmem).1
    exact Or.inr (by simpa [mkVD] using hdel)
  · intro n s r k b hin
    rw [htr] at hin
    have hevs : Event.copySnapshot n s r k b ∈ evs := by
      simp only [List.mem_append, List.mem_cons, List.not_mem_nil, or_false,
        List.mem_map] at hin
      rcases hin with ((h | h) | h) | h
      · exact h
      · obtain ⟨vd, _, hvd⟩ := h; simp at hvd
      · simp at h
      · obtain ⟨vd, _, hvd⟩ := cleanupEvs_mem vds _ h
        rcases hvd with h | h | h <;> simp at h
    obtain ⟨v, hv, hs⟩ := runVolumes_shape m cmk w m.volumes 0 _ (by rw [hr]; exact hevs)
    unfold evShape at hs
    rcases hs with h|h|h|h|h|h|⟨d,h⟩|⟨d,h⟩|h <;> simp_all
    obtain ⟨mp, _, hmem, _⟩ := h1 v hv
    have hdel := (cleanupEvs_has vds (mkVD v mp) hmem).2.1
    exact Or.inr (by simpa [mkVD] using hdel)

/-- C5 amended witness. -/
theorem finished_run_deletes_created_snapshots_witness :
    (∀ sid vid, Event.createSnapshot sid vid ∈ (run m1 none wAll).1 →
        Event.deleteSnapshot sid ∈ (run m1 none wAll).1) ∧
    (∀ n s r k b, Event.copySnapshot n s r k b ∈ (run m1 none wAll).1 →
        Event.deleteSnapshot n ∈ (run m1 none wAll).1) :=
  finished_run_deletes_created_snapshots m1 none wAll (by decide)

theorem runVolumes_no_source_delete (m : Machine) (cmk : Option String)
    (w : WaitOutcomes) (hids : goodIds m) (evs : List Event)
    (r : Outcome ⊕ List VolumeData)
    (hr : runVolumes m cmk w 0 m.volumes = (evs, r))
    (v : Volume) (hv : v ∈ m.volumes) :
    Event.deleteVolume v.volumeId ∉ evs := by
  intro hin
  obtain ⟨u, hu, hs⟩ := runVolumes_shape m cmk w m.volumes 0 _ (by rw [hr]; exact hin)
  unfold evShape at hs
  rcases hs with h|h|h|h|h|h|⟨d,h⟩|⟨d,h⟩|h <;> try simp_all
  exact hids v hv u hu h.symm

/-- C1: the source volume is deleted only in the Cleanup phase of a run
that finished - after its replacement was attached and the start call
was issued - and no failing run (rollback or wait timeout) ever deletes
a source volume. -/
theorem source_deleted_only_after_attach_and_start (m : Machine)
    (cmk : Option String) (w : WaitOutcomes) (hids : goodIds m) :
    ((run m cmk w).2 ≠ Outcome.finished →
      ∀ v ∈ m.volumes, Event.deleteVolume v.volumeId ∉ (run m cmk w).1) ∧
    ((run m cmk w).2 = Outcome.finished →
      ∃ pre vds, (run m cmk w).1 =
          pre ++ [Event.startInstance m.instanceId] ++ cleanupEvs vds ∧
        (∀ v ∈ m.volumes, Event.deleteVolume v.volumeId ∉ pre) ∧
        (∀ vd ∈ vds, ∃ dev, Event.attachVolume (encVolId vd.volumeId) dev ∈ pre) ∧
        (∀ v ∈ m.volumes, Event.deleteVolume v.volumeId ∈ cleanupEvs vds →
          ∃ vd ∈ vds, vd.volumeId = v.volumeId)) := by
  constructor
  · intro hnf v hv hin
    by_cases hex : w.instanceExists = false
    · simp [run, hex] at hin
    · rcases hr : runVolumes m cmk w 0 m.volumes with ⟨evs, r⟩
      cases r with
      | inl o =>
        rw [show (run m cmk w).1 = evs by simp [run, hex, hr]] at hin
        exact runVolumes_no_source_delete m cmk w hids evs _ hr v hv hin
      | inr vds =>
        by_cases hrn : w.instanceRunning = false
        · rw [show (run m cmk w).1 = evs ++
            vds.map (fun vd => Event.modifyAttribute vd.deviceName vd.deleteOnTermination) ++
            [Event.startInstance m.instanceId] by simp [run, hex, hr, hrn]] at hin
          have hevs2 : Event.deleteVolume v.volumeId ∈ evs := by simpa using hin
          exact runVolumes_no_source_delete m cmk w hids evs _ hr v hv hevs2
        · exact hnf (by simp [run, hex, hr, hrn])
  · intro hfin
    obtain ⟨hex, hrn, evs, vds, hr, htr⟩ := run_finished_inv m cmk w hfin
    obtain ⟨h1, h2, h3, h4⟩ := runVolumes_inr m cmk w m.volumes 0 evs vds hr
    refine ⟨evs ++
      vds.map (fun vd => Event.modifyAttribute vd.deviceName vd.deleteOnTermination),
      vds, ?_, ?_, ?_, ?_⟩
    · rw [htr]
    · intro v hv hin
      rcases List.mem_append.mp hin with h | h
      · exact runVolumes_no_source_delete m cmk w hids evs _ hr v hv h
      · simp only [List.mem_map] at h
        obtain ⟨vd, _, hvd⟩ := h
        simp at hvd
    · intro vd hvd
      obtain ⟨v, hv, mp2, hmp2, hvdeq⟩ := h2 vd hvd
      obtain ⟨mp, hmp, hmem, hat⟩ := h1 v hv
      refine ⟨mp.deviceName, ?_⟩
      have hvid : vd.volumeId = v.volumeId := by rw [hvdeq]; rfl
      rw [hvid]
      exact List.mem_append.mpr (Or.inl hat)
    · intro v hv hin
      obtain ⟨vd, hvd, hcase⟩ := cleanupEvs_mem vds _ hin
      rcases hcase with h | h | h
      · simp at h
      · simp at h
      · exact ⟨vd, hvd, by injection h with h2; exact h2.symm⟩

/-- C1 witness. -/
theorem source_deleted_only_after_attach_and_start_witness :
    (((run m1 none wAll).2 ≠ Outcome.finished →
      ∀ v ∈ m1.volumes, Event.deleteVolume v.volumeId ∉ (run m1 none wAll).1) ∧
    ((run m1 none wAll).2 = Outcome.finished →
      ∃ pre vds, (run m1 none wAll).1 =
          pre ++ [Event.startInstance m1.instanceId] ++ cleanupEvs vds ∧
        (∀ v ∈ m1.volumes, Event.deleteVolume v.volumeId ∉ pre) ∧
        (∀ vd ∈ vds, ∃ dev, Event.attachVolume (encVolId vd.volumeId) dev ∈ pre) ∧
        (∀ v ∈ m1.volumes, Event.deleteVolume v.volumeId ∈ cleanupEvs vds →
          ∃ vd ∈ vds, vd.volumeId = v.volumeId))) :=
  source_deleted_only_after_attach_and_start m1 none wAll (by decide)

theorem processVolume_inl_nil (m : Machine) (cmk : Option String)
    (w : WaitOutcomes) (i : Nat) (v : Volume) (o : Outcome)
    (henc : v.encrypted = false) (hst : ¬ exitState m.stateCode)
    (h : processVolume m cmk w i v = ([], Sum.inl o)) :
    o = Outcome.exitErr stopWaitMsg ∧ m.stateCode ≠ 16 := by
  unfold processVolume stopEvs at h
  rcases hm : findMapping m.blockDeviceMappings v.volumeId with _ | mp
  all_goals rw [hm] at h
  all_goals split_ifs at h <;> simp_all [exitState]

/-- C7 counterexample: a machine in the pending state (code 0) with an
unencrypted volume is rejected by the state check, although the claim
says every non-terminal state (including pending) proceeds. -/
theorem pending_state_counterexample :
    mPending.stateCode = 0 ∧
    run mPending none wAll =
      ([], Outcome.exitErr
        "ERROR: Instance is pending please make sure this instance is active.") := by
  decide

/-- C7 amended: for a machine with at least one attached, unencrypted
volume, the run aborts with the invalid-state message and no mutation
exactly when the state code is pending (0), shutting-down (32) or
terminated (48); the running, stopping and stopped states pass the
check. -/
theorem state_check_pending_also_fails (m : Machine) (cmk : Option String)
    (w : WaitOutcomes) (v : Volume) (vs : List Volume)
    (hex : w.instanceExists = true)
    (hvols : m.volumes = v :: vs)
    (henc : v.encrypted = false)
    (hcode : m.stateCode = 0 ∨ m.stateCode = 16 ∨ m.stateCode = 32 ∨
             m.stateCode = 48 ∨ m.stateCode = 64 ∨ m.stateCode = 80) :
    exitState m.stateCode ↔
      run m cmk w = ([], Outcome.exitErr (invalidStateMsg m.stateCode)) := by
  constructor
  · intro hst
    have hst2 : m.stateCode = 0 ∨ m.stateCode = 32 ∨ m.stateCode = 48 := hst
    have hpv : processVolume m cmk w 0 v =
        ([], Sum.inl (Outcome.exitErr (invalidStateMsg m.stateCode))) := by
      unfold processVolume
      rw [if_neg (by simp [henc]), if_pos hst2]
    simp [run, hex, hvols, runVolumes, hpv]
  · intro hrun
    by_contra hnst
    rcases hr : runVolumes m cmk w 0 m.volumes with ⟨evs, r⟩
    cases r with
    | inr vds =>
      by_cases hrn : w.instanceRunning = false
      · have : (run m cmk w).1 = evs ++
            vds.map (fun vd => Event.modifyAttribute vd.deviceName vd.deleteOnTermination) ++
            [Event.startInstance m.instanceId] := by simp [run, hex, hr, hrn]
        rw [hrun] at this
        simp at this
      · have : (run m cmk w).1 = evs ++
            vds.map (fun vd => Event.modifyAttribute vd.deviceName vd.deleteOnTermination) ++
            [Event.startInstance m.instanceId] ++ cleanupEvs vds := by
          simp [run, hex, hr, hrn]
        rw [hrun] at this
        simp at this
    | inl o =>
      have hpair : evs = [] ∧ o = Outcome.exitErr (invalidStateMsg m.stateCode) := by
        have h2 : run m cmk w = (evs, o) := by simp [run, hex, hr]
        rw [hrun] at h2
        exact ⟨(Prod.mk.injEq _ _ _ _ ▸ h2).1.symm, (Prod.mk.injEq _ _ _ _ ▸ h2).2.symm⟩
      obtain ⟨hevs0, ho⟩ := hpair
      subst hevs0
      rw [hvols, runVolumes] at hr
      rcases hp : processVolume m cmk w 0 v with ⟨evs1, r1⟩
      rw [hp] at hr
      cases r1 with
      | inl o1 =>
        simp only [Prod.mk.injEq, Sum.inl.injEq] at hr
        obtain ⟨he1, he2⟩ := hr
        rw [he1, he2] at hp
        obtain ⟨hostop, h16⟩ := processVolume_inl_nil m cmk w 0 v o henc hnst hp
        rw [ho] at hostop
        have hmsg : invalidStateMsg m.stateCode = stopWaitMsg := by
          injection hostop with h3
        rcases hcode with hc | hc | hc | hc | hc | hc
        · exact hnst (by simp [exitState, hc])
        · exact h16 hc
        · exact hnst (by simp [exitState, hc])
        · exact hnst (by simp [exitState, hc])
        · rw [hc] at hmsg
          exact absurd hmsg (by decide)
        · rw [hc] at hmsg
          exact absurd hmsg (by decide)
      | inr vd =>
        rcases hq : runVolumes m cmk w 1 vs with ⟨evs2, r2⟩
        rw [hq] at hr
        obtain ⟨he0, hst0, mp, hmp, hokevs, _⟩ := processVolume_inr _ _ _ _ _ _ _ hp
        cases r2 with
        | inl o2 =>
          simp only [Prod.mk.injEq, Sum.inl.injEq] at hr
          have : evs1 ++ evs2 = [] := hr.1
          rw [hokevs] at this
          simp [okEvs] at this
        | inr vds2 => simp at hr

/-- C7 amended witness. -/
theorem state_check_pending_also_fails_witness :
    exitState mPending.stateCode ↔
      run mPending none wAll =
        ([], Outcome.exitErr (invalidStateMsg mPending.stateCode)) :=
  state_check_pending_also_fails mPending none wAll volA []
    (by decide) (by decide) (by decide) (by decide)

/-- C8: for a machine whose attached volumes are all unencrypted and
mapped, a run in which every wait succeeds finishes, attaches each
replacement volume at the device name of the source volume it replaces,
reapplies each captured delete-on-termination flag, creates exactly one
attach call per volume, and issues the start call exactly once. -/
theorem successful_run_swaps_and_starts_once (m : Machine)
    (cmk : Option String) (w : WaitOutcomes)
    (hex : w.instanceExists = true) (hrn : w.instanceRunning = true)
    (hst : ¬ exitState m.stateCode)
    (hw : ∀ j, w.instanceStopped j = true ∧ w.snapshotComplete j = true ∧
        w.copyComplete j = true ∧ w.volumeAvailable j = true)
    (hvs : ∀ v ∈ m.volumes, v.encrypted = false ∧
        (findMapping m.blockDeviceMappings v.volumeId).isSome = true) :
    (run m cmk w).2 = Outcome.finished ∧
    ((run m cmk w).1.filter Event.isStart).length = 1 ∧
    ((run m cmk w).1.filter Event.isAttach).length = m.volumes.length ∧
    (∀ v ∈ m.volumes, ∀ mp, findMapping m.blockDeviceMappings v.volumeId = some mp →
      Event.attachVolume (encVolId v.volumeId) mp.deviceName ∈ (run m cmk w).1 ∧
      Event.modifyAttribute mp.deviceName mp.deleteOnTermination ∈ (run m cmk w).1) := by
  obtain ⟨evs, vds, hr⟩ := runVolumes_ok m cmk w hst hw m.volumes 0 hvs
  obtain ⟨h1, h2, h3, h4⟩ := runVolumes_inr m cmk w m.volumes 0 evs vds hr
  have htr : (run m cmk w).1 = evs ++
      vds.map (fun vd => Event.modifyAttribute vd.deviceName vd.deleteOnTermination) ++
      [Event.startInstance m.instanceId] ++ cleanupEvs vds := by
    simp [run, hex, hr, hrn]
  have hstarts : evs.filter Event.isStart = [] := by
    rw [List.filter_eq_nil_iff]
    intro e he
    have hs := runVolumes_shape m cmk w m.volumes 0 e (by rw [hr]; exact he)
    obtain ⟨v, _, hs2⟩ := hs
    simp [evShape_not_start m cmk v e hs2]
  have hmodstarts :
      (vds.map (fun vd => Event.modifyAttribute vd.deviceName vd.deleteOnTermination)).filter
        Event.isStart = [] := by
    rw [List.filter_eq_nil_iff]
    intro e he
    simp only [List.mem_map] at he
    obtain ⟨vd, _, hvd⟩ := he
    subst hvd
    simp [Event.isStart]
  have hcleanstarts : (cleanupEvs vds).filter Event.isStart = [] := by
    rw [List.filter_eq_nil_iff]
    intro e he
    obtain ⟨vd, _, hc⟩ := cleanupEvs_mem vds e he
    rcases hc with h | h | h <;> subst h <;> simp [Event.isStart]
  have hmodattach :
      (vds.map (fun vd => Event.modifyAttribute vd.deviceName vd.deleteOnTermination)).filter
        Event.isAttach = [] := by
    rw [List.filter_eq_nil_iff]
    intro e he
    simp only [List.mem_map] at he
    obtain ⟨vd, _, hvd⟩ := he
    subst hvd
    simp [Event.isAttach]
  have hcleanattach : (cleanupEvs vds).filter Event.isAttach = [] := by
    rw [List.filter_eq_nil_iff]
    intro e he
    obtain ⟨vd, _, hc⟩ := cleanupEvs_mem vds e he
    rcases hc with h | h | h <;> subst h <;> simp [Event.isAttach]
  refine ⟨by simp [run, hex, hr, hrn], ?_, ?_, ?_⟩
  · rw [htr]
    simp [List.filter_append, hstarts, hmodstarts, hcleanstarts, Event.isStart]
  · rw [htr]
    simp [List.filter_append, hmodattach, hcleanattach, h4, Event.isAttach]
  · intro v hv mp hmp
    obtain ⟨mp2, hmp2, hmem, hat⟩ := h1 v hv
    rw [hmp] at hmp2
    injection hmp2 with hmpeq
    subst hmpeq
    constructor
    · rw [htr]
      simp only [List.mem_append]
      exact Or.inl (Or.inl (Or.inl hat))
    · rw [htr]
      simp only [List.mem_append, List.mem_map]
      refine Or.inl (Or.inl (Or.inr ⟨mkVD v mp, hmem, ?_⟩))
      simp [mkVD]

/-- C8 witness. -/
theorem successful_run_swaps_and_starts_once_witness :
    (run m1 none wAll).2 = Outcome.finished ∧
    ((run m1 none wAll).1.filter Event.isStart).length = 1 ∧
    ((run m1 none wAll).1.filter Event.isAttach).length = m1.volumes.length ∧
    (∀ v ∈ m1.volumes, ∀ mp, findMapping m1.blockDeviceMappings v.volumeId = some mp →
      Event.attachVolume (encVolId v.volumeId) mp.deviceName ∈ (run m1 none wAll).1 ∧
      Event.modifyAttribute mp.deviceName mp.deleteOnTermination ∈ (run m1 none wAll).1) :=
  successful_run_swaps_and_starts_once m1 none wAll (by decide) (by decide)
    (by decide) (fun j => ⟨rfl, rfl, rfl, rfl⟩) (by decide)

/-- C2 counterexample: when the available-wait for the replacement
volume times out, the source volume has already been detached and is
never re-attached, so it is not attached at its original device name
when the program exits. -/
theorem avail_timeout_source_detached_counterexample :
    Event.detachVolume "vol-0" "dev-sda1" ∈ (run m1 none wNoAvail).1 ∧
    (run m1 none wNoAvail).1.filter Event.isAttach = [] ∧
    (run m1 none wNoAvail).2 = Outcome.exitErr availWaitMsg := by decide

/-- C2 amended: whenever the available-wait for the replacement volume
times out, the run deletes exactly three resources - the plain
snapshot, the encrypted-copy snapshot and the replacement volume - and
never the source volume; but the source volume was detached by the
step before the wait and is not re-attached before the program exits. -/
theorem avail_wait_timeout_rollback (m : Machine) (cmk : Option String)
    (w : WaitOutcomes) (pre post : List Volume) (v : Volume) (mp : Mapping)
    (hvols : m.volumes = pre ++ v :: post)
    (hex : w.instanceExists = true)
    (hst : ¬ exitState m.stateCode)
    (hids : goodIds m)
    (hpre : ∀ u ∈ pre, u.encrypted = false ∧
        (findMapping m.blockDeviceMappings u.volumeId).isSome = true)
    (hw : ∀ j, j < pre.length → w.instanceStopped j = true ∧
        w.snapshotComplete j = true ∧ w.copyComplete j = true ∧
        w.volumeAvailable j = true)
    (henc : v.encrypted = false)
    (hmp : findMapping m.blockDeviceMappings v.volumeId = some mp)
    (hstop : w.instanceStopped pre.length = true)
    (hsnap : w.snapshotComplete pre.length = true)
    (hcopy : w.copyComplete pre.length = true)
    (havail : w.volumeAvailable pre.length = false) :
    (run m cmk w).2 = Outcome.exitErr availWaitMsg ∧
    (run m cmk w).1.filter Event.isDelete =
      [Event.deleteSnapshot (snapId v.volumeId),
       Event.deleteSnapshot (encSnapId v.volumeId),
       Event.deleteVolume (encVolId v.volumeId)] ∧
    Event.deleteVolume v.volumeId ∉ (run m cmk w).1 ∧
    Event.detachVolume v.volumeId mp.deviceName ∈ (run m cmk w).1 ∧
    (∀ dev, Event.attachVolume v.volumeId dev ∉ (run m cmk w).1) := by
  have hv : v ∈ m.volumes := by simp [hvols]
  obtain ⟨evs0, vds0, hshape, hdel, heq⟩ :=
    runVolumes_split m cmk w hst pre (v :: post) 0 hpre
      (by intro j hj; simpa using hw j hj)
  have hfail := processVolume_availFail m cmk w pre.length v mp
    henc hst hmp hstop hsnap hcopy havail
  have htail : runVolumes m cmk w pre.length (v :: post) =
      (stopEvs m ++
       [Event.createSnapshot (snapId v.volumeId) v.volumeId,
        Event.copySnapshot (encSnapId v.volumeId) (snapId v.volumeId) "us-east-1" cmk true,
        Event.createVolume (encVolId v.volumeId) (encSnapId v.volumeId) "gp2" m.availabilityZone,
        Event.detachVolume v.volumeId mp.deviceName,
        Event.deleteSnapshot (snapId v.volumeId),
        Event.deleteSnapshot (encSnapId v.volumeId),
        Event.deleteVolume (encVolId v.volumeId)],
       Sum.inl (Outcome.exitErr availWaitMsg)) := by
    simp [runVolumes, hfail]
  simp only [Nat.zero_add] at heq
  have hruneq : run m cmk w = (evs0 ++
      (stopEvs m ++
       [Event.createSnapshot (snapId v.volumeId) v.volumeId,
        Event.copySnapshot (encSnapId v.volumeId) (snapId v.volumeId) "us-east-1" cmk true,
        Event.createVolume (encVolId v.volumeId) (encSnapId v.volumeId) "gp2" m.availabilityZone,
        Event.detachVolume v.volumeId mp.deviceName,
        Event.deleteSnapshot (snapId v.volumeId),
        Event.deleteSnapshot (encSnapId v.volumeId),
        Event.deleteVolume (encVolId v.volumeId)]),
      Outcome.exitErr availWaitMsg) := by
    unfold run
    rw [if_neg (by simp [hex]), hvols, heq, htail]
  refine ⟨by rw [hruneq], ?_, ?_, ?_, ?_⟩
  · rw [hruneq]
    by_cases h16 : m.stateCode = 16 <;>
      simp [List.filter_append, hdel, stopEvs, h16, Event.isDelete]
  · rw [hruneq]
    intro hin
    simp only [List.mem_append] at hin
    rcases hin with h | h
    · obtain ⟨u, hu, hs⟩ := hshape _ h
      have hu2 : u ∈ m.volumes := by simp [hvols, hu]
      unfold evShape at hs
      rcases hs with h1|h1|h1|h1|h1|h1|⟨d,h1⟩|⟨d,h1⟩|h1 <;> simp at h1
      exact hids v hv u hu2 h1.symm
    · by_cases h16 : m.stateCode = 16 <;> simp [stopEvs, h16] at h
      all_goals exact hids v hv v hv h.symm
  · rw [hruneq]
    simp
  · intro dev hin
    rw [hruneq] at hin
    simp only [List.mem_append] at hin
    rcases hin with h | h
    · obtain ⟨u, hu, hs⟩ := hshape _ h
      have hu2 : u ∈ m.volumes := by simp [hvols, hu]
      unfold evShape at hs
      rcases hs with h1|h1|h1|h1|h1|h1|⟨d,h1⟩|⟨d,h1⟩|h1 <;> simp at h1
      exact hids v hv u hu2 h1.1.symm
    · by_cases h16 : m.stateCode = 16 <;> simp [stopEvs, h16] at h

/-- C2 amended witness. -/
theorem avail_wait_timeout_rollback_witness :
    (run m1 none wNoAvail).2 = Outcome.exitErr availWaitMsg ∧
    (run m1 none wNoAvail).1.filter Event.isDelete =
      [Event.deleteSnapshot (snapId volA.volumeId),
       Event.deleteSnapshot (encSnapId volA.volumeId),
       Event.deleteVolume (encVolId volA.volumeId)] ∧
    Event.deleteVolume volA.volumeId ∉ (run m1 none wNoAvail).1 ∧
    Event.detachVolume volA.volumeId mapA.deviceName ∈ (run m1 none wNoAvail).1 ∧
    (∀ dev, Event.attachVolume volA.volumeId dev ∉ (run m1 none wNoAvail).1) :=
  avail_wait_timeout_rollback m1 none wNoAvail [] [] volA mapA
    rfl (by decide) (by decide) (by decide)
    (by intro u hu; simp at hu)
    (by intro j hj; exact absurd hj (by simp))
    (by decide) (by decide) rfl rfl rfl rfl

/-- C6: when the wait for the plain snapshot of the in-flight volume
times out, the run deletes that snapshot and nothing else, creates and
attaches no replacement for that volume (all volume creations and
attaches in the trace belong to previously completed volumes), never
detaches or deletes the in-flight source volume, and exits with the
snapshot-wait error. -/
theorem snapshot_wait_timeout_rollback (m : Machine) (cmk : Option String)
    (w : WaitOutcomes) (pre post : List Volume) (v : Volume)
    (hvols : m.volumes = pre ++ v :: post)
    (hex : w.instanceExists = true)
    (hst : ¬ exitState m.stateCode)
    (hids : goodIds m)
    (hnodup : (m.volumes.map Volume.volumeId).Nodup)
    (hpre : ∀ u ∈ pre, u.encrypted = false ∧
        (findMapping m.blockDeviceMappings u.volumeId).isSome = true)
    (hw : ∀ j, j < pre.length → w.instanceStopped j = true ∧
        w.snapshotComplete j = true ∧ w.copyComplete j = true ∧
        w.volumeAvailable j = true)
    (henc : v.encrypted = false)
    (hstop : w.instanceStopped pre.length = true)
    (hsnap : w.snapshotComplete pre.length = false) :
    (run m cmk w).2 = Outcome.exitErr snapWaitMsg ∧
    (run m cmk w).1.filter Event.isDelete =
      [Event.deleteSnapshot (snapId v.volumeId)] ∧
    (∀ dev, Event.detachVolume v.volumeId dev ∉ (run m cmk w).1) ∧
    (∀ n s t a, Event.createVolume n s t a ∈ (run m cmk w).1 →
        ∃ u ∈ pre, n = encVolId u.volumeId) ∧
    (∀ x dev, Event.attachVolume x dev ∈ (run m cmk w).1 →
        ∃ u ∈ pre, x = encVolId u.volumeId) ∧
    Event.deleteVolume v.volumeId ∉ (run m cmk w).1 := by
  have hv : v ∈ m.volumes := by simp [hvols]
  have hdisj : ∀ u ∈ pre, u.volumeId ≠ v.volumeId := by
    intro u hu hequ
    rw [hvols] at hnodup
    simp only [List.map_append, List.map_cons] at hnodup
    rcases List.nodup_append.mp hnodup with ⟨_, _, hdis⟩
    exact hdis (List.mem_map_of_mem _ hu)
      (by rw [hequ]; exact List.mem_cons_self _ _)
  obtain ⟨evs0, vds0, hshape, hdel, heq⟩ :=
    runVolumes_split m cmk w hst pre (v :: post) 0 hpre
      (by intro j hj; simpa using hw j hj)
  have hfail := processVolume_snapFail m cmk w pre.length v henc hst hstop hsnap
  have htail : runVolumes m cmk w pre.length (v :: post) =
      (stopEvs m ++ [Event.createSnapshot (snapId v.volumeId) v.volumeId,
                     Event.deleteSnapshot (snapId v.volumeId)],
       Sum.inl (Outcome.exitErr snapWaitMsg)) := by
    simp [runVolumes, hfail]
  simp only [Nat.zero_add] at heq
  have hruneq : run m cmk w = (evs0 ++
      (stopEvs m ++ [Event.createSnapshot (snapId v.volumeId) v.volumeId,
                     Event.deleteSnapshot (snapId v.volumeId)]),
      Outcome.exitErr snapWaitMsg) := by
    unfold run
    rw [if_neg (by simp [hex]), hvols, heq, htail]
  refine ⟨by rw [hruneq], ?_, ?_, ?_, ?_, ?_⟩
  · rw [hruneq]
    by_cases h16 : m.stateCode = 16 <;>
      simp [List.filter_append, hdel, stopEvs, h16, Event.isDelete]
  · intro dev hin
    rw [hruneq] at hin
    simp only [List.mem_append] at hin
    rcases hin with h | h
    · obtain ⟨u, hu, hs⟩ := hshape _ h
      unfold evShape at hs
      rcases hs with h1|h1|h1|h1|h1|h1|⟨d,h1⟩|⟨d,h1⟩|h1 <;> simp at h1
      exact hdisj u hu h1.1.symm
    · by_cases h16 : m.stateCode = 16 <;> simp [stopEvs, h16] at h
  · intro n s t a hin
    rw [hruneq] at hin
    simp only [List.mem_append] at hin
    rcases hin with h | h
    · obtain ⟨u, hu, hs⟩ := hshape _ h
      unfold evShape at hs
      rcases hs with h1|h1|h1|h1|h1|h1|⟨d,h1⟩|⟨d,h1⟩|h1 <;> simp at h1
      exact ⟨u, hu, h1.1⟩
    · by_cases h16 : m.stateCode = 16 <;> simp [stopEvs, h16] at h
  · intro x dev hin
    rw [hruneq] at hin
    simp only [List.mem_append] at hin
    rcases hin with h | h
    · obtain ⟨u, hu, hs⟩ := hshape _ h
      unfold evShape at hs
      rcases hs with h1|h1|h1|h1|h1|h1|⟨d,h1⟩|⟨d,h1⟩|h1 <;> simp at h1
      exact ⟨u, hu, h1.1⟩
    · by_cases h16 : m.stateCode = 16 <;> simp [stopEvs, h16] at h
  · intro hin
    rw [hruneq] at hin
    simp only [List.mem_append] at hin
    rcases hin with h | h
    · obtain ⟨u, hu, hs⟩ := hshape _ h
      have hu2 : u ∈ m.volumes := by simp [hvols, hu]
      unfold evShape at hs
      rcases hs with h1|h1|h1|h1|h1|h1|⟨d,h1⟩|⟨d,h1⟩|h1 <;> simp at h1
      exact hids v hv u hu2 h1.symm
    · by_cases h16 : m.stateCode = 16 <;> simp [stopEvs, h16] at h

/-- C6 witness. -/
theorem snapshot_wait_timeout_rollback_witness :
    (run m1 none wNoSnap).2 = Outcome.exitErr snapWaitMsg ∧
    (run m1 none wNoSnap).1.filter Event.isDelete =
      [Event.deleteSnapshot (snapId volA.volumeId)] ∧
    (∀ dev, Event.detachVolume volA.volumeId dev ∉ (run m1 none wNoSnap).1) ∧
    (∀ n s t a, Event.createVolume n s t a ∈ (run m1 none wNoSnap).1 →
        ∃ u ∈ ([] : List Volume), n = encVolId u.volumeId) ∧
    (∀ x dev, Event.attachVolume x dev ∈ (run m1 none wNoSnap).1 →
        ∃ u ∈ ([] : List Volume), x = encVolId u.volumeId) ∧
    Event.deleteVolume volA.volumeId ∉ (run m1 none wNoSnap).1 :=
  snapshot_wait_timeout_rollback m1 none wNoSnap [] [] volA
    rfl (by decide) (by decide) (by decide) (by decide)
    (by intro u hu; simp at hu)
    (by intro j hj; exact absurd hj (by simp))
    (by decide) rfl rfl
